import Mathlib

/-!
Shallow embedding of the vue-kakuyaku task/scope/SWR core.

JavaScript object identity (`===` on payloads) is modelled by giving every
payload a numeric identity (`Nat`); promises are modelled as write-once
cells (`Option`), where the first resolution wins and later resolutions are
no-ops, exactly as in the ECMAScript promise-resolution semantics; the
microtask scheduler is modelled by letting an external event list choose
when each settled promise's continuation fires.  Vue's reactivity engine is
an external collaborator (per the design notes): a `watch` is modelled by a
memoised source value with `Object.is` change detection, and watcher
callbacks are allowed to re-trigger themselves by mutating their own
dependencies (Vue sets `allowRecurse` for watchers with callbacks).
-/

namespace VueKakuyaku

/-- Replace the element at index `i` (no-op when out of range), mirroring an
in-place mutation of a JS array slot. -/
def updateAt {α : Type} : List α → Nat → (α → α) → List α
  | [], _, _ => []
  | x :: xs, 0, f => f x :: xs
  | x :: xs, n + 1, f => x :: updateAt xs n f

/-! ## TaskState (src/unnamed/part_006, `TaskState<T>` and `statesEqual`) -/

/-- `TaskState<T>`: `uninit | pending | ok {data} | err {error} | aborted`.
Payloads carry the identity of the JS value (`===` is `Nat` equality). -/
inductive TaskSt where
  | uninit
  | pending
  | ok (data : Nat)
  | err (error : Nat)
  | aborted
deriving DecidableEq

/-- `statesEqual` (part_006): kind equality, plus payload identity for
`ok`/`err`. -/
def statesEqual : TaskSt → TaskSt → Bool
  | .uninit, .uninit => true
  | .pending, .pending => true
  | .aborted, .aborted => true
  | .ok d1, .ok d2 => d1 == d2
  | .err e1, .err e2 => e1 == e2
  | _, _ => false

/-- `setTaskStateWithEqualityCheck` (part_006): assign only when the states
are not `statesEqual`.  The returned `Bool` records whether a reactive write
(and hence a downstream notification) happened. -/
def setTaskStateWithEqualityCheck (cur new : TaskSt) : TaskSt × Bool :=
  if statesEqual cur new then (cur, false) else (new, true)

/-! ## AbortHandle (src/unnamed/part_006, class `AbortHandle`) -/

/-- An abort hook as registered via `onAbort`: its identity, and whether its
body throws when invoked. -/
structure Hook where
  id : Nat
  throws : Bool
deriving DecidableEq

/-- Invoking one hook: it is appended to the invocation trace, and either
returns normally or raises its id as a JS exception. -/
def runHook (h : Hook) (trace : List Nat) : List Nat × Except Nat Unit :=
  (trace ++ [h.id], if h.throws then .error h.id else .ok ())

/-- `AbortHandle.abort`: iterate over the registered hooks in order; each
invocation is wrapped in `try/catch`, a caught exception being logged to the
console (second component) and the loop continuing.  Returns the invocation
trace and the console-error log. -/
def abortLoop : List Hook → List Nat × List Nat → List Nat × List Nat
  | [], acc => acc
  | h :: rest, (trace, errs) =>
    match runHook h trace with
    | (trace', .ok _) => abortLoop rest (trace', errs)
    | (trace', .error e) => abortLoop rest (trace', errs ++ [e])

/-! ## BareTask (src/unnamed/part_006, class `BareTask`) -/

/-- Outcome of the wrapped async function (`fn` settles with a value or a
rejection).  Payloads are value identities. -/
inductive FnOutcome where
  | ok (v : Nat)
  | err (e : Nat)
deriving DecidableEq

/-- `BareTaskRunReturn<T>`: `{kind:'ok'} | {kind:'err'} | {kind:'aborted'}`. -/
inductive RunReturn where
  | ok (v : Nat)
  | err (e : Nat)
  | aborted
deriving DecidableEq

def outcomeToReturn : FnOutcome → RunReturn
  | .ok v => .ok v
  | .err e => .err e

/-- The promise returned by one `run()` call: a write-once cell. -/
structure BareRun where
  cell : Option RunReturn := none
deriving DecidableEq

/-- Promise resolution: the first `resolve` wins, later ones are no-ops. -/
def resolveOnce (r : BareRun) (v : RunReturn) : BareRun :=
  match r.cell with
  | some _ => r
  | none => { cell := some v }

/-- `BareTask` instance state: the promises of all dispatched runs (indexed
by dispatch order), the active-run slot `#active`, and how many times the
wrapped function was invoked. -/
structure BareModel where
  runs : List BareRun := []
  active : Option Nat := none
  fnCalls : Nat := 0
deriving DecidableEq

/-- `BareTask.abort`: if a run is active, fire its `AbortHandle` — whose
first registered hook resolves that run's promise with `aborted` — and clear
the active slot; with no active run it is a no-op. -/
def bareAbort (m : BareModel) : BareModel :=
  match m.active with
  | none => m
  | some i => { m with runs := updateAt m.runs i (resolveOnce · .aborted), active := none }

/-- `BareTask.run`: abort any active run, create a fresh `AbortHandle` and
promise, invoke the wrapped function once, and store the new active run. -/
def bareRunStep (m : BareModel) : BareModel :=
  let m1 := bareAbort m
  { m1 with
      runs := m1.runs ++ [{}]
      active := some m1.runs.length
      fnCalls := m1.fnCalls + 1 }

/-- External events driving a `BareTask`: a `run()` call, an `abort()` call,
or the wrapped function of run `i` settling with outcome `r`. -/
inductive BareEvent where
  | run
  | abort
  | fnSettle (i : Nat) (r : FnOutcome)

def bareStep (m : BareModel) : BareEvent → BareModel
  | .run => bareRunStep m
  | .abort => bareAbort m
  | .fnSettle i r => { m with runs := updateAt m.runs i (resolveOnce · (outcomeToReturn r)) }

def bareExec (es : List BareEvent) : BareModel := es.foldl bareStep {}

/-- The resolved value of run `i`'s promise, when settled. -/
def bareCellAt (m : BareModel) (i : Nat) : Option RunReturn :=
  (m.runs.get? i).bind (·.cell)

/-! ## useTask (src/unnamed/part_006, `useTask` / `Task<T>`) -/

/-- One run dispatched by `Task.run`: the `BareTask` promise cell, and
whether the `.then` continuation attached inside `useTask.run` has already
fired. -/
structure TaskRun where
  cell : Option RunReturn := none
  contFired : Bool := false
deriving DecidableEq

def resolveOnceT (r : TaskRun) (v : RunReturn) : TaskRun :=
  match r.cell with
  | some _ => r
  | none => { r with cell := some v }

/-- A `Task` created by `useTask`: the observable reactive `state`, a count
of actual reactive writes to it (downstream notifications), the
`lastRun` promise identity, the inner `BareTask`'s active slot, the
dispatched runs, and the wrapped-function invocation count. -/
structure TaskModel where
  state : TaskSt := .uninit
  writes : Nat := 0
  lastRun : Option Nat := none
  active : Option Nat := none
  runs : List TaskRun := []
  fnCalls : Nat := 0
deriving DecidableEq

/-- Write `task.state` through `setTaskStateWithEqualityCheck`, counting the
reactive writes that actually happen. -/
def setState (m : TaskModel) (s : TaskSt) : TaskModel :=
  let r := setTaskStateWithEqualityCheck m.state s
  { m with state := r.1, writes := m.writes + (if r.2 then 1 else 0) }

/-- `Task.abort` (the bound `bare.abort`): resolve the active run's promise
with `aborted` via its abort hook and clear the active slot. -/
def taskAbort (m : TaskModel) : TaskModel :=
  match m.active with
  | none => m
  | some i => { m with runs := updateAt m.runs i (resolveOnceT · .aborted), active := none }

/-- `useTask.run`: `abort()`, synchronously set `state` to `pending` (with
the equality check), dispatch `bare.run()` — invoking the wrapped function
once — and record the returned promise as `lastRun`. -/
def taskRunStep (m : TaskModel) : TaskModel :=
  let m1 := taskAbort m
  let m2 := setState m1 .pending
  { m2 with
      runs := m2.runs ++ [{}]
      active := some m2.runs.length
      lastRun := some m2.runs.length
      fnCalls := m2.fnCalls + 1 }

/-- How a settled `BareTaskRunReturn` is written to `task.state`
(`result.kind === 'aborted' ? STATE_ABORTED_RAW : markRaw(result)`). -/
def collapseReturn : RunReturn → TaskSt
  | .ok v => .ok v
  | .err e => .err e
  | .aborted => .aborted

/-- The microtask continuation attached in `useTask.run`: once run `i`'s
promise is settled, fire at most once; write the result to `task.state`
only when run `i` is still the most recently dispatched run
(`lastRun === thisPromise`). -/
def taskContStep (m : TaskModel) (i : Nat) : TaskModel :=
  match m.runs.get? i with
  | none => m
  | some r =>
    match r.cell with
    | none => m
    | some res =>
      if r.contFired then m
      else
        let m1 := { m with runs := updateAt m.runs i (fun t => { t with contFired := true }) }
        if m1.lastRun = some i then setState m1 (collapseReturn res) else m1

/-- External events driving a `Task`: a `run()` call, an `abort()` call, the
wrapped function of run `i` settling, or the scheduler firing run `i`'s
continuation microtask. -/
inductive TaskEvent where
  | run
  | abort
  | fnSettle (i : Nat) (r : FnOutcome)
  | cont (i : Nat)

def taskStep (m : TaskModel) : TaskEvent → TaskModel
  | .run => taskRunStep m
  | .abort => taskAbort m
  | .fnSettle i r => { m with runs := updateAt m.runs i (resolveOnceT · (outcomeToReturn r)) }
  | .cont i => taskContStep m i

def taskExec (es : List TaskEvent) : TaskModel := es.foldl taskStep {}

/-- The resolved value of the promise returned by the `i`-th `run()` call. -/
def taskCellAt (m : TaskModel) (i : Nat) : Option RunReturn :=
  (m.runs.get? i).bind (·.cell)

def isRunEvent : TaskEvent → Bool
  | .run => true
  | _ => false

def isBareRunEvent : BareEvent → Bool
  | .run => true
  | _ => false

/-! ## useParamScope (src/unnamed/part_012) -/

/-- `ScopeKey = string | number | symbol | true`.  Strings keep their value
(JS truthiness of `''` matters), numbers are modelled as integers (`0` is
falsy), symbols by identity. -/
inductive PKey where
  | pTrue
  | pStr (s : String)
  | pNum (n : Int)
  | pSym (id : Nat)
deriving DecidableEq

/-- `UniScopeKey = ScopeKey | ComposedKey<ScopeKey, any>`; payload by value
identity. -/
inductive UniKey where
  | plain (k : PKey)
  | composed (k : PKey) (payload : Nat)
deriving DecidableEq

/-- A reactive-source value fed to `useParamScope`: a falsy marker
(`false`/`null`/`undefined`) or a `UniScopeKey`. -/
inductive KVal where
  | vFalse
  | vNull
  | vUndef
  | uni (u : UniKey)
deriving DecidableEq

/-- `falsyKeyToMaybe`: `null`/`undefined`/`false` map to `null`, everything
else is wrapped in `{some}`. -/
def falsyKeyToMaybe : KVal → Option UniKey
  | .vFalse => none
  | .vNull => none
  | .vUndef => none
  | .uni u => some u

/-- `getKeyOnly`: a plain key is itself, a composed key contributes its
`key` sub-field. -/
def getKeyOnly : UniKey → PKey
  | .plain k => k
  | .composed k _ => k

/-- `spreadKey`: the `{key}` / `{key, payload}` record spread into the
exposed value. -/
def spreadKey : UniKey → PKey × Option Nat
  | .plain k => (k, none)
  | .composed k p => (k, some p)

/-- JS truthiness of a `ScopeKey` (`!onlyKey` in the watch callback). -/
def keyTruthy : PKey → Bool
  | .pTrue => true
  | .pStr s => !(s == "")
  | .pNum n => !(n == 0)
  | .pSym _ => true

/-- JS truthiness of the watch-source value (`null` is falsy). -/
def srcTruthy : Option PKey → Bool
  | none => false
  | some k => keyTruthy k

/-- State of one `useParamScope` call: the watcher's memoised source value
(`none` until the immediate first evaluation), the deferred scope's current
exposed full key, the arguments `setup` has been invoked with, and how many
times a live scope has been disposed. -/
structure PSModel where
  memo : Option (Option PKey) := none
  scope : Option UniKey := none
  setupCalls : List UniKey := []
  disposeCount : Nat := 0
deriving DecidableEq

/-- `DeferredScope.dispose`: stop and clear the child scope if there is
one; a no-op otherwise. -/
def psDispose (m : PSModel) : PSModel :=
  match m.scope with
  | none => m
  | some _ => { m with scope := none, disposeCount := m.disposeCount + 1 }

/-- `DeferredScope.setup`: dispose any existing child scope, then run the
setup closure — which calls the user `setup` with the current full key and
exposes it (spread through `spreadKey` unless the key is the literal
`true`). -/
def psSetup (m : PSModel) (u : UniKey) : PSModel :=
  let m1 := psDispose m
  { m1 with scope := some u, setupCalls := m1.setupCalls ++ [u] }

/-- The watch callback of `useParamScope`: dispose on a falsy `onlyKey`,
otherwise set up the scope with the current `filteredKey.value!.some`. -/
def psCallback (m : PSModel) (src : Option PKey) (filtered : Option UniKey) : PSModel :=
  if srcTruthy src then
    match filtered with
    | some u => psSetup m u
    | none => m
  else psDispose m

/-- Feed one re-evaluation of the key source through `useParamScope`'s
watcher: compute `filteredKey` and the key-only source; run the callback
when the watcher has not run yet (`immediate: true`) or the source value
changed per `Object.is`. -/
def psProcess (m : PSModel) (v : KVal) : PSModel :=
  let filtered := falsyKeyToMaybe v
  let src := filtered.map getKeyOnly
  match m.memo with
  | none => psCallback { m with memo := some src } src filtered
  | some old =>
    if old = src then m
    else psCallback { m with memo := some src } src filtered

def psExec (vs : List KVal) : PSModel := vs.foldl psProcess {}

/-! ## useErrorRetry (src/unnamed/part_006) -/

/-- State of one `useErrorRetry` call: `retriesCount`, whether the
`useIntervalFn` timer is running, whether `useLastTaskResult` currently
holds an `err` result, the number of `task.run()` invocations made by the
retry callback, and the watcher's memoised source value. -/
structure RetryModel where
  retries : Nat := 0
  timerActive : Bool := false
  lastErr : Bool := false
  runCalls : Nat := 0
  memo : Option Bool := none
deriving DecidableEq

/-- The watched source:
`lastResult.value?.kind === 'err' && retriesCount.value < count`. -/
def retrySource (count : Nat) (m : RetryModel) : Bool :=
  m.lastErr && decide (m.retries < count)

/-- Flush the `useErrorRetry` watcher to a fixpoint: re-evaluate the
source; when it differs from the memo, run the callback (`resume` on
`true`; `resetCounter` then `pause` on `false`).  The callback's own
mutation of `retriesCount` re-triggers the watcher (Vue watchers allow
recursion), hence the fuel-bounded re-evaluation loop. -/
def retryFlush (count : Nat) : Nat → RetryModel → RetryModel
  | 0, m => m
  | fuel + 1, m =>
    let s := retrySource count m
    let changed := match m.memo with
      | none => true
      | some old => old ≠ s
    if changed then
      let m1 := { m with memo := some s }
      if s then retryFlush count fuel { m1 with timerActive := true }
      else retryFlush count fuel { m1 with retries := 0, timerActive := false }
    else m

/-- Fuel amply covering the watcher's recursion depth per flush. -/
def retryFlushFuel : Nat := 4

/-- Events driving `useErrorRetry` attached to a permanently failing task:
the task settling (`isErr` is the settled kind), or an interval tick —
which, when the timer is running, increments `retriesCount`, calls
`task.run()` and (the task failing again) leaves the last result at `err`,
after which the watcher flushes. -/
inductive RetryEvent where
  | settle (isErr : Bool)
  | tick

def retryStep (count : Nat) (m : RetryModel) : RetryEvent → RetryModel
  | .settle isErr => retryFlush count retryFlushFuel { m with lastErr := isErr }
  | .tick =>
    if m.timerActive then
      retryFlush count retryFlushFuel
        { m with retries := m.retries + 1, runCalls := m.runCalls + 1, lastErr := true }
    else m

/-- `useErrorRetry` setup: the watcher runs once immediately. -/
def retryInit (count : Nat) : RetryModel := retryFlush count retryFlushFuel {}

def retryExec (count : Nat) (es : List RetryEvent) : RetryModel :=
  es.foldl (retryStep count) (retryInit count)

/-! ## SWR resource layer (src/packages/core-old/src/swr.ts) -/

/-- `ResourceState<T>`: `{data, error, pending, fresh}`; `data`/`error` are
`Option<T>` cells (`someMarkRaw` wrappers), payloads by value identity. -/
structure SwrState where
  data : Option Nat := none
  error : Option Nat := none
  pending : Bool := false
  fresh : Bool := false
deriving DecidableEq

/-- One launched `executeFetch`: the promise cell inside it (first resolved
by either the abort hook with `FETCH_TASK_ABORTED` or the fetch function's
settlement), whether its commit continuation has run, and how many times
its `initFetchAbort` handle's `abort()` was invoked (each invocation runs
every registered hook once). -/
structure FetchRec where
  cell : Option RunReturn := none
  contFired : Bool := false
  hookRuns : Nat := 0
deriving DecidableEq

def resolveOnceF (f : FetchRec) (v : RunReturn) : FetchRec :=
  match f.cell with
  | some _ => f
  | none => { f with cell := some v }

/-- The per-key fetch-trigger scope: the `ResourceState` in the store, the
`currentFetchTask` slot, and all launched fetches. -/
structure SwrModel where
  st : SwrState := {}
  current : Option Nat := none
  fetches : List FetchRec := []
deriving DecidableEq

/-- `abortFetchTaskIfThereIsSome`: set `state.pending = false`, invoke the
current fetch's abort handle (whose first registered hook resolves the
fetch's inner promise with `FETCH_TASK_ABORTED`), and clear
`currentFetchTask`. -/
def swrAbortFetch (m : SwrModel) : SwrModel :=
  let m1 := { m with st := { m.st with pending := false } }
  match m1.current with
  | none => m1
  | some i =>
    { m1 with
        fetches := updateAt m1.fetches i
          (fun f => resolveOnceF { f with hookRuns := f.hookRuns + 1 } .aborted)
        current := none }

/-- The `whenever(triggerExecuteFetch)` body: abort any current fetch, then
launch `executeFetch` — which synchronously sets `state.pending = true`,
registers the abort-resolver hook, and invokes the fetch function — and
store the new `currentFetchTask`. -/
def swrStartFetch (m : SwrModel) : SwrModel :=
  let m1 := swrAbortFetch m
  { m1 with
      st := { m1.st with pending := true }
      fetches := m1.fetches ++ [{}]
      current := some m1.fetches.length }

/-- `refresh(force?)`: mark `fresh = false`; when forced, also abort the
in-flight fetch. -/
def swrRefresh (m : SwrModel) (force : Bool) : SwrModel :=
  let m1 := { m with st := { m.st with fresh := false } }
  if force then swrAbortFetch m1 else m1

/-- The tail of `executeFetch` after its awaited promise settles: on
`FETCH_TASK_ABORTED` return without touching the state; on fulfilment
commit `data`, set `fresh = true`, clear `error`, clear `pending`; on
rejection commit `error`, set `fresh = true`, clear `pending`. -/
def commitFetch (st : SwrState) : RunReturn → SwrState
  | .aborted => st
  | .ok v => { st with data := some v, fresh := true, error := none, pending := false }
  | .err e => { st with error := some e, fresh := true, pending := false }

/-- Fire fetch `i`'s settled continuation (at most once): run the
`executeFetch` tail, then the `.finally` clearing `currentFetchTask` when
it still holds this fetch's promise. -/
def swrCont (m : SwrModel) (i : Nat) : SwrModel :=
  match m.fetches.get? i with
  | none => m
  | some f =>
    match f.cell with
    | none => m
    | some res =>
      if f.contFired then m
      else
        let m1 := { m with
          fetches := updateAt m.fetches i (fun f => { f with contFired := true })
          st := commitFetch m.st res }
        if m1.current = some i then { m1 with current := none } else m1

/-- Events driving the SWR fetch scope: the trigger watcher launching a
fetch, a `refresh(force)` call, the fetch function of fetch `i` settling,
or the scheduler firing fetch `i`'s continuation. -/
inductive SwrEvent where
  | start
  | refresh (force : Bool)
  | fnSettle (i : Nat) (r : FnOutcome)
  | cont (i : Nat)

def swrStep (m : SwrModel) : SwrEvent → SwrModel
  | .start => swrStartFetch m
  | .refresh force => swrRefresh m force
  | .fnSettle i r => { m with fetches := updateAt m.fetches i (resolveOnceF · (outcomeToReturn r)) }
  | .cont i => swrCont m i

def swrExec (es : List SwrEvent) : SwrModel := es.foldl swrStep {}

/-! ## Helper lemmas -/

theorem get?_updateAt {α : Type} (l : List α) (j : Nat) (f : α → α) (i : Nat) :
    (updateAt l j f).get? i = if i = j then (l.get? i).map f else l.get? i := by
  induction l generalizing i j with
  | nil => simp [updateAt]
  | cons a l ih =>
    cases j with
    | zero => cases i <;> simp [updateAt]
    | succ j =>
      cases i with
      | zero => simp [updateAt]
      | succ i => simpa [updateAt] using ih j i

/-- A settled `BareRun` promise keeps its value across any further
resolution attempt on any run. -/
theorem bareCells_updateAt (runs : List BareRun) (i j : Nat) (v x : RunReturn)
    (h : (runs.get? i).bind (·.cell) = some x) :
    ((updateAt runs j (resolveOnce · v)).get? i).bind (·.cell) = some x := by
  rw [get?_updateAt]
  by_cases hij : i = j
  · subst hij
    cases hr : runs.get? i with
    | none => rw [hr] at h; simp at h
    | some r =>
      rw [hr] at h
      simp at h
      simp [hr, resolveOnce, h]
  · rw [if_neg hij]
    exact h

/-- A settled `BareRun` promise is untouched when a new run is appended. -/
theorem bareCells_append (runs l₂ : List BareRun) (i : Nat) (x : RunReturn)
    (h : (runs.get? i).bind (·.cell) = some x) :
    (((runs ++ l₂).get? i).bind (·.cell)) = some x := by
  cases hr : runs.get? i with
  | none => rw [hr] at h; simp at h
  | some r =>
    obtain ⟨hlt, -⟩ := List.get?_eq_some.mp hr
    rw [List.get?_append hlt, hr]
    rw [hr] at h
    exact h

theorem bareAbort_cell (m : BareModel) (i : Nat) (x : RunReturn)
    (h : bareCellAt m i = some x) : bareCellAt (bareAbort m) i = some x := by
  unfold bareAbort
  cases ha : m.active with
  | none => exact h
  | some k => exact bareCells_updateAt m.runs i k .aborted x h

/-! ## Claim theorems -/

/-- Claim C7: `AbortHandle.abort` invokes every registered hook exactly once, in
registration order (the invocation trace is exactly the hook list);
a hook that throws is caught, its exception is logged to the console
(the error log is exactly the throwing hooks, in order), the remaining
hooks still run, and `abort` always returns normally to its caller. -/
theorem abortHandle_runs_all_hooks (hooks : List Hook) :
    abortLoop hooks ([], []) =
      (hooks.map (·.id), (hooks.filter (·.throws)).map (·.id)) := by
  suffices h : ∀ t e, abortLoop hooks (t, e) =
      (t ++ hooks.map (·.id), e ++ (hooks.filter (·.throws)).map (·.id)) by
    simpa using h [] []
  induction hooks with
  | nil => intro t e; simp [abortLoop]
  | cons h rest ih =>
    intro t e
    cases hth : h.throws <;>
      simp [abortLoop, runHook, hth, ih, List.filter_cons]

/-- Claim C9: assigning a task state that is `statesEqual` to the current one —
same tag, and for `ok`/`err` an identity-equal payload — is a no-op: the
state value is unchanged and no reactive write is reported, both for the
raw `setTaskStateWithEqualityCheck` and for a `Task`'s observable state
(written through `setState`, which counts downstream notifications); in
particular `pending → pending` and an identical `ok → ok` do not write. -/
theorem taskState_equal_assignment_noop :
    (∀ s s', statesEqual s s' = true → setTaskStateWithEqualityCheck s s' = (s, false)) ∧
    (∀ (m : TaskModel) (s : TaskSt), statesEqual m.state s = true → setState m s = m) ∧
    (∀ x, setTaskStateWithEqualityCheck (.ok x) (.ok x) = (.ok x, false)) ∧
    (setTaskStateWithEqualityCheck .pending .pending = (.pending, false)) := by
  refine ⟨?_, ?_, ?_, ?_⟩
  · intro s s' h
    simp [setTaskStateWithEqualityCheck, h]
  · intro m s h
    simp [setState, setTaskStateWithEqualityCheck, h]
  · intro x
    simp [setTaskStateWithEqualityCheck, statesEqual]
  · rfl

/-- Witness for C9 at concrete inputs. -/
theorem taskState_equal_assignment_noop_witness :
    setTaskStateWithEqualityCheck (.ok 7) (.ok 7) = (.ok 7, false) ∧
    setState ({} : TaskModel) .uninit = {} :=
  ⟨taskState_equal_assignment_noop.1 (.ok 7) (.ok 7) (by decide),
   taskState_equal_assignment_noop.2.1 {} .uninit (by decide)⟩

/-- Once a `BareTask` run's promise is settled, no further event can change
its value — the promise resolves to exactly one outcome. -/
theorem bare_settled_cell_permanent (m : BareModel) (e : BareEvent) (i : Nat)
    (x : RunReturn) (h : bareCellAt m i = some x) :
    bareCellAt (bareStep m e) i = some x := by
  cases e with
  | run =>
    show bareCellAt (bareRunStep m) i = some x
    unfold bareRunStep bareCellAt
    exact bareCells_append _ _ _ _ (bareAbort_cell m i x h)
  | abort => exact bareAbort_cell m i x h
  | fnSettle j r => exact bareCells_updateAt m.runs i j _ x h

/-- Claim C2: a `BareTask.run` promise settles to exactly one of `ok`/`err`/
`aborted` — once settled, no later event (another run, an abort, or the
wrapped function's own settlement) can change its value — and when
`abort()` fires before the wrapped function settles, the promise resolves
to `aborted` and the function's eventual settlement (even a success) is
never observable through it. -/
theorem bareTask_abort_wins :
    (∀ (m : BareModel) (e : BareEvent) (i : Nat) (x : RunReturn),
      bareCellAt m i = some x → bareCellAt (bareStep m e) i = some x) ∧
    (∀ r : FnOutcome,
      bareCellAt (bareExec [.run, .abort]) 0 = some .aborted ∧
      bareCellAt (bareExec [.run, .abort, .fnSettle 0 r]) 0 = some .aborted) := by
  refine ⟨bare_settled_cell_permanent, ?_⟩
  intro r
  refine ⟨by decide, ?_⟩
  exact bare_settled_cell_permanent (bareExec [.run, .abort]) (.fnSettle 0 r) 0 .aborted
    (by decide)

/-- Witness for C2 at a concrete input: the wrapped function later
succeeding with data `42` does not overwrite the `aborted` resolution. -/
theorem bareTask_abort_wins_witness :
    bareCellAt (bareStep (bareExec [.run, .abort]) (.fnSettle 0 (.ok 42))) 0
      = some .aborted :=
  bareTask_abort_wins.1 (bareExec [.run, .abort]) (.fnSettle 0 (.ok 42)) 0 .aborted
    (by decide)

theorem bareStep_fnCalls (m : BareModel) (e : BareEvent) :
    (bareStep m e).fnCalls = m.fnCalls + (if isBareRunEvent e then 1 else 0) := by
  cases e with
  | run =>
    show (bareRunStep m).fnCalls = _
    unfold bareRunStep bareAbort
    cases m.active <;> simp [isBareRunEvent]
  | abort =>
    show (bareAbort m).fnCalls = _
    unfold bareAbort
    cases m.active <;> simp [isBareRunEvent]
  | fnSettle i r => simp [bareStep, isBareRunEvent]

theorem taskStep_fnCalls (m : TaskModel) (e : TaskEvent) :
    (taskStep m e).fnCalls = m.fnCalls + (if isRunEvent e then 1 else 0) := by
  cases e with
  | run =>
    show (taskRunStep m).fnCalls = _
    unfold taskRunStep setState taskAbort
    cases m.active <;> simp [isRunEvent]
  | abort =>
    show (taskAbort m).fnCalls = _
    unfold taskAbort
    cases m.active <;> simp [isRunEvent]
  | fnSettle i r => simp [taskStep, isRunEvent]
  | cont i =>
    show (taskContStep m i).fnCalls = _
    unfold taskContStep
    split
    · simp [isRunEvent]
    · split
      · simp [isRunEvent]
      · split
        · simp [isRunEvent]
        · by_cases hlr : m.lastRun = some i <;> simp [hlr, isRunEvent, setState]

theorem bareExec_fnCalls_general (es : List BareEvent) :
    ∀ m : BareModel, (es.foldl bareStep m).fnCalls = m.fnCalls + es.countP isBareRunEvent := by
  induction es with
  | nil => intro m; simp
  | cons e es ih =>
    intro m
    rw [List.foldl_cons, ih, bareStep_fnCalls, List.countP_cons]
    cases isBareRunEvent e <;> simp <;> omega

theorem taskExec_fnCalls_general (es : List TaskEvent) :
    ∀ m : TaskModel, (es.foldl taskStep m).fnCalls = m.fnCalls + es.countP isRunEvent := by
  induction es with
  | nil => intro m; simp
  | cons e es ih =>
    intro m
    rw [List.foldl_cons, ih, taskStep_fnCalls, List.countP_cons]
    cases isRunEvent e <;> simp <;> omega

theorem taskStep_nonrun_init (e : TaskEvent) (h : isRunEvent e = false) :
    taskStep {} e = ({} : TaskModel) := by
  cases e with
  | run => simp [isRunEvent] at h
  | abort => rfl
  | fnSettle i r => rfl
  | cont i => rfl

theorem taskExec_no_runs (es : List TaskEvent) (h : es.countP isRunEvent = 0) :
    taskExec es = ({} : TaskModel) := by
  unfold taskExec
  induction es with
  | nil => rfl
  | cons e es ih =>
    rw [List.countP_cons] at h
    cases hb : isRunEvent e with
    | false =>
      rw [hb] at h
      rw [List.foldl_cons, taskStep_nonrun_init e hb]
      exact ih (by simpa using h)
    | true => rw [hb] at h; simp at h

/-- Claim C10: constructing a `BareTask`, and likewise calling `useTask`, never
invokes the wrapped async function (`fnCalls = 0` initially); across any
event sequence the function is invoked exactly once per `run()` call; and a
task that is never run stays in the `uninit` state (indeed its whole model
state is still the freshly constructed one). -/
theorem task_fn_called_once_per_run :
    (({} : BareModel).fnCalls = 0 ∧ ({} : TaskModel).fnCalls = 0 ∧
      ({} : TaskModel).state = .uninit) ∧
    (∀ es : List BareEvent, (bareExec es).fnCalls = es.countP isBareRunEvent) ∧
    (∀ es : List TaskEvent, (taskExec es).fnCalls = es.countP isRunEvent) ∧
    (∀ es : List TaskEvent, es.countP isRunEvent = 0 →
      taskExec es = ({} : TaskModel) ∧ (taskExec es).state = .uninit) := by
  refine ⟨⟨rfl, rfl, rfl⟩, ?_, ?_, ?_⟩
  · intro es
    simpa using bareExec_fnCalls_general es {}
  · intro es
    simpa using taskExec_fnCalls_general es {}
  · intro es h
    exact ⟨taskExec_no_runs es h, by rw [taskExec_no_runs es h]⟩

/-- Witness for C10 at a concrete input: a task that is aborted and whose
(non-existent) runs are poked, but never run, stays untouched in `uninit`. -/
theorem task_fn_called_once_per_run_witness :
    taskExec [.abort, .cont 0, .fnSettle 0 (.ok 1)] = ({} : TaskModel) ∧
    (taskExec [.abort, .cont 0, .fnSettle 0 (.ok 1)]).state = .uninit :=
  task_fn_called_once_per_run.2.2.2 [.abort, .cont 0, .fnSettle 0 (.ok 1)] (by decide)

/-- Claim C1: a terminal state produced by a superseded (non-latest) run is never
written to the observable `task.state`: from any model state, the
continuation of a run `i` that is no longer `lastRun` leaves `state`
untouched and produces no reactive write.  In the overlapping scenario —
`run()` called twice before the first run settles — the first run's promise
resolves to `aborted` (and that resolution is delivered), while the final
observable state is exactly the second run's outcome. -/
theorem task_superseded_run_never_writes :
    (∀ (m : TaskModel) (i : Nat), m.lastRun ≠ some i →
      (taskStep m (.cont i)).state = m.state ∧
      (taskStep m (.cont i)).writes = m.writes) ∧
    (∀ r : FnOutcome,
      taskCellAt (taskExec [.run, .run, .cont 0, .fnSettle 1 r, .cont 1]) 0
        = some .aborted ∧
      ((taskExec [.run, .run, .cont 0, .fnSettle 1 r, .cont 1]).runs.get? 0).map
        (·.contFired) = some true ∧
      (taskExec [.run, .run, .cont 0, .fnSettle 1 r, .cont 1]).state
        = collapseReturn (outcomeToReturn r)) := by
  constructor
  · intro m i h
    show (taskContStep m i).state = m.state ∧ (taskContStep m i).writes = m.writes
    unfold taskContStep
    split
    · exact ⟨rfl, rfl⟩
    · split
      · exact ⟨rfl, rfl⟩
      · split
        · exact ⟨rfl, rfl⟩
        · rw [if_neg (by simpa using h)]
          exact ⟨rfl, rfl⟩
  · intro r
    cases r with
    | ok v => exact ⟨rfl, rfl, rfl⟩
    | err e => exact ⟨rfl, rfl, rfl⟩

/-- Witness for C1 at a concrete input: the stale continuation of the
superseded first run fires against the live model without touching state. -/
theorem task_superseded_run_never_writes_witness :
    (taskStep (taskExec [.run, .run]) (.cont 0)).state
      = (taskExec [.run, .run]).state ∧
    (taskStep (taskExec [.run, .run]) (.cont 0)).writes
      = (taskExec [.run, .run]).writes :=
  task_superseded_run_never_writes.1 (taskExec [.run, .run]) 0 (by decide)

theorem psCallback_memo (m : PSModel) (src : Option PKey) (f : Option UniKey) :
    (psCallback m src f).memo = m.memo := by
  unfold psCallback psSetup psDispose
  split
  · split
    · cases m.scope <;> rfl
    · rfl
  · cases m.scope <;> rfl

/-- A re-evaluation whose key-only source value equals the watcher's memo is
dropped by `Object.is` change detection: the whole `useParamScope` state is
untouched. -/
theorem psProcess_same_src (m : PSModel) (v : KVal)
    (h : m.memo = some ((falsyKeyToMaybe v).map getKeyOnly)) : psProcess m v = m := by
  unfold psProcess
  rw [h]
  simp

/-- Claim C5: when the composed key source re-evaluates from `{key: k, payload:
p1}` to `{key: k, payload: p2}` — same `key`, any payloads — the second
evaluation is a complete no-op on the `useParamScope` state (no re-setup,
no dispose); concretely, for the spec's key sequence `{key:'a',payload:1},
{key:'a',payload:2}`, setup is invoked exactly once (with the first
composed value) and dispose is never called. -/
theorem paramScope_same_key_ignores_payload :
    (∀ (k : PKey) (p1 p2 : Nat),
      psExec [.uni (.composed k p1), .uni (.composed k p2)]
        = psExec [.uni (.composed k p1)]) ∧
    ((psExec [.uni (.composed (.pStr "a") 1), .uni (.composed (.pStr "a") 2)]).setupCalls
        = [.composed (.pStr "a") 1] ∧
     (psExec [.uni (.composed (.pStr "a") 1), .uni (.composed (.pStr "a") 2)]).disposeCount
        = 0 ∧
     (psExec [.uni (.composed (.pStr "a") 1), .uni (.composed (.pStr "a") 2)]).scope
        = some (.composed (.pStr "a") 1)) := by
  constructor
  · intro k p1 p2
    show psProcess (psProcess {} (.uni (.composed k p1))) (.uni (.composed k p2))
      = psProcess {} (.uni (.composed k p1))
    refine psProcess_same_src _ _ ?_
    show (psCallback { memo := some (some k) } (some k) (some (.composed k p1))).memo
      = some (some k)
    rw [psCallback_memo]
  · exact ⟨by decide, by decide, by decide⟩

/-- Claim C6: evaluation of `useParamScope` at the failing inputs.  The primitive
keys `0` and `''` are JavaScript-falsy, so although `falsyKeyToMaybe`
deliberately lets them through (only `false`/`null`/`undefined` mean "no
key"), the watch callback's `if (!onlyKey)` check disposes instead of
setting up: no scope is created and `setup` is never called — and a live
scope keyed `'x'` is even disposed when the source switches to key `0`.
Truthy primitives behave as the claim says. -/
theorem paramScope_falsy_primitive_key_gets_no_scope :
    ((psExec [.uni (.plain (.pNum 0))]).scope = none ∧
     (psExec [.uni (.plain (.pNum 0))]).setupCalls = []) ∧
    ((psExec [.uni (.plain (.pStr ""))]).scope = none ∧
     (psExec [.uni (.plain (.pStr ""))]).setupCalls = []) ∧
    ((psExec [.uni (.plain (.pStr "x")), .uni (.plain (.pNum 0))]).scope = none ∧
     (psExec [.uni (.plain (.pStr "x")), .uni (.plain (.pNum 0))]).disposeCount = 1) ∧
    ((psExec [.uni (.plain (.pStr "x"))]).setupCalls = [.plain (.pStr "x")] ∧
     (psExec [.uni (.plain (.pStr "x"))]).scope = some (.plain (.pStr "x"))) := by
  decide

/-- Claim C3: evaluation of `useErrorRetry` with `count = 2` against a
permanently failing task.  After the error settles and four interval ticks,
the retry callback has invoked `task.run()` four times — exceeding the
configured count — and the timer is still running: exhausting the count
flips the watched condition to `false`, whose callback resets the counter
to `0`, which immediately re-satisfies `retries < count` and resumes the
timer.  The reset-and-stop behaviour on a non-error terminal state does
hold (last two conjuncts). -/
theorem useErrorRetry_retries_beyond_count :
    ((retryExec 2 [.settle true, .tick, .tick, .tick, .tick]).runCalls = 4 ∧
     (retryExec 2 [.settle true, .tick, .tick, .tick, .tick]).timerActive = true) ∧
    ((retryExec 2 [.settle true, .tick, .settle false]).retries = 0 ∧
     (retryExec 2 [.settle true, .tick, .settle false]).timerActive = false) := by
  decide

/-- Claim C4: an aborted `executeFetch`'s settled continuation commits nothing to
the resource state (general part: whenever a fetch's inner promise resolved
to `FETCH_TASK_ABORTED`, firing its continuation leaves `data`, `error`,
`fresh` and `pending` all unchanged); and in the in-flight scenario,
`refresh(true)` marks `fresh = false`, resets `pending` to `false`, invokes
the fetch's registered abort hooks exactly once, and the aborted fetch's
eventual settlement — success or failure — changes none of the resource
state and runs no hook again. -/
theorem swr_force_refresh_aborts_in_flight_fetch :
    (∀ (m : SwrModel) (i : Nat) (f : FetchRec),
      m.fetches.get? i = some f → f.cell = some .aborted →
      (swrCont m i).st = m.st) ∧
    (∀ r : FnOutcome,
      ((swrExec [.start, .refresh true]).st.fresh = false ∧
       (swrExec [.start, .refresh true]).st.pending = false ∧
       ((swrExec [.start, .refresh true]).fetches.get? 0).map (·.hookRuns) = some 1) ∧
      (swrExec [.start, .refresh true, .fnSettle 0 r, .cont 0]).st
        = (swrExec [.start, .refresh true]).st ∧
      ((swrExec [.start, .refresh true, .fnSettle 0 r, .cont 0]).fetches.get? 0).map
        (·.hookRuns) = some 1) := by
  constructor
  · intro m i f hg hc
    unfold swrCont
    split
    · rfl
    · rename_i f' heq
      rw [hg] at heq
      injection heq with heq
      subst heq
      split
      · rfl
      · rename_i res hres
        rw [hc] at hres
        injection hres with hres
        subst hres
        split
        · rfl
        · dsimp only
          split <;> rfl
  · intro r
    refine ⟨⟨by decide, by decide, by decide⟩, ?_, ?_⟩
    · cases r <;> rfl
    · cases r <;> rfl

/-- Witness for C4 at a concrete input: firing the aborted fetch's
continuation against the post-refresh model leaves the state untouched. -/
theorem swr_force_refresh_aborts_in_flight_fetch_witness :
    (swrCont (swrExec [.start, .refresh true]) 0).st
      = (swrExec [.start, .refresh true]).st :=
  swr_force_refresh_aborts_in_flight_fetch.1 (swrExec [.start, .refresh true]) 0
    { cell := some .aborted, contFired := false, hookRuns := 1 } (by decide) (by decide)

/-- Claim C8 counterexample: a fetch that rejects *does* mark the state fresh.
After a single fetch whose function rejects with error `7`, the stored
state is `{data: null, error: some 7, pending: false, fresh: true}` —
`fresh = true` although no successful fetch ever happened, refuting the
claim that `fresh = true` holds only when the state reflects the most
recent successful fetch. -/
theorem swr_rejected_fetch_marks_fresh_counterexample :
    (swrExec [.start, .fnSettle 0 (.err 7), .cont 0]).st
      = { data := none, error := some 7, pending := false, fresh := true } := by
  decide

/-- Claim C8 amended: `fresh = true` is set when the most recent fetch for the
key has settled, whether it fulfilled or rejected: the `executeFetch`
commit sets `fresh = true` in both the success branch (recording `data`,
clearing `error`) and the rejection branch (recording `error`, leaving
`data` unchanged); only an aborted fetch leaves the state, `fresh`
included, untouched. -/
theorem swr_fresh_after_any_settled_fetch :
    (∀ (st : SwrState) (e : Nat),
      commitFetch st (.err e)
        = { st with error := some e, fresh := true, pending := false }) ∧
    (∀ (st : SwrState) (v : Nat),
      commitFetch st (.ok v)
        = { st with data := some v, fresh := true, error := none, pending := false }) ∧
    (∀ st : SwrState, commitFetch st .aborted = st) ∧
    (∀ e : Nat,
      (swrExec [.start, .fnSettle 0 (.err e), .cont 0]).st
        = { data := none, error := some e, pending := false, fresh := true }) := by
  exact ⟨fun st e => rfl, fun st v => rfl, fun st => rfl, fun e => rfl⟩

